import Mathlib

/-!
Verification of the FRUSA-OpenAlex migration pipeline.

This file gives a shallow embedding of the repository's core logic:

* `classify_career` from `visualize_migration.py` (the trajectory classifier);
* the first-country scan from `filter_phd_authors.py` (`main`) and
  `mark_french_phd_authors.py` (`prepare_author_urls`);
* the chunk cleaning, per-author sorting and serialization from
  `process_authors.py` (`create_author_sequences_optimized`);
* the row filtering and cohort summarization from
  `visualize_migration.py` (`create_migration_visual`).

Python string primitives (`str.split`, `str.strip`, `str.lower`, `str.join`)
are embedded as executable functions on `List Char` with Python's semantics.
-/

namespace FRUSA

/-- The ASCII whitespace characters removed by Python `str.strip()`. -/
def isSpaceChar (c : Char) : Bool :=
  c == ' ' || c == '\t' || c == '\n' || c == '\r' || c == '\x0b' || c == '\x0c'

/-- Python `str.strip()` on a character list: drop whitespace from both ends. -/
def pyStripList (l : List Char) : List Char :=
  ((l.dropWhile isSpaceChar).reverse.dropWhile isSpaceChar).reverse

/-- Python `str.strip()`. -/
def pyStrip (s : String) : String :=
  ⟨pyStripList s.data⟩

/-- Worker for Python `str.split(sep)` with a non-empty separator: scan left to
right; whenever `sep` occurs, cut the current segment.  `fuel` bounds the
recursion; any fuel larger than the length of the input gives Python's result. -/
def pySplitGo (sep : List Char) : Nat → List Char → List Char → List (List Char)
  | 0, s, acc => [acc.reverse ++ s]
  | fuel + 1, s, acc =>
    match s with
    | [] => [acc.reverse]
    | c :: cs =>
      if sep.isPrefixOf (c :: cs) then
        acc.reverse :: pySplitGo sep fuel ((c :: cs).drop sep.length) []
      else
        pySplitGo sep fuel cs (c :: acc)

/-- Python `s.split(sep)` for a non-empty separator `sep`. -/
def pySplit (s sep : String) : List String :=
  (pySplitGo sep.data (s.data.length + 1) s.data []).map fun l => ⟨l⟩

/-- ASCII lower-casing of one character, as Python `str.lower()` does on ASCII. -/
def lowerChar (c : Char) : Char :=
  if 65 ≤ c.toNat && c.toNat ≤ 90 then Char.ofNat (c.toNat + 32) else c

/-- Python `str.lower()` (ASCII fragment, which is all this data uses). -/
def pyLower (s : String) : String :=
  ⟨s.data.map lowerChar⟩

/-- Python `sep.join(xs)`. -/
def pyJoin (sep : String) (xs : List String) : String :=
  ⟨List.intercalate sep.data (xs.map String.data)⟩

/-! ## The trajectory classifier (`classify_career` in `visualize_migration.py`) -/

/-- The six category labels emitted by `classify_career`, in the order of the
`all_categories` list of `create_migration_visual`. -/
def allCategories : List String :=
  ["Stayed in France", "Round-trip (via US)", "Round-trip (no US)",
   "Expatriate (to US)", "Expatriate (abroad, no US)", "Complex/Ongoing Migration"]

/-- Line `countries = [c.strip() for c in sequence.split('->')]` — the parsed,
stripped components the classifier works on. -/
def careerCountries (sequence : String) : List String :=
  (pySplit sequence "->").map pyStrip

/-- Body of `classify_career` after the `isinstance` check and the split.
`countries[-1]` is modelled by `getLastD`; a split result is never empty, so
the default is never used on inputs reachable from a string.  The Python
`set(...)` built for `last_locations` is modelled by list membership, which
agrees with set membership. -/
def classifyCountries (countries : List String) : String :=
  if countries.all (fun c => c == "FR") then "Stayed in France"
  else
    let last_location_raw := countries.getLastD ""
    let last_locations := (pySplit last_location_raw ",").map pyStrip
    let journey_had_us := countries.any fun c => (pySplit c ",").contains "US"
    if last_location_raw == "FR" then
      if journey_had_us then "Round-trip (via US)" else "Round-trip (no US)"
    else
      let is_last_in_us := last_locations.contains "US"
      let is_last_in_france_too := last_locations.contains "FR"
      if is_last_in_us && !is_last_in_france_too then "Expatriate (to US)"
      else if !is_last_in_us && !is_last_in_france_too then "Expatriate (abroad, no US)"
      else "Complex/Ongoing Migration"

/-- A Python value passed to `classify_career`: either a string or something
else (pandas `NaN`, a float, ...), which the `isinstance` guard rejects. -/
inductive PyVal where
  | str (s : String)
  | nonStr

/-- Function `classify_career` from `visualize_migration.py`. -/
def classify_career : PyVal → String
  | .nonStr => "Invalid Sequence"
  | .str sequence => classifyCountries (careerCountries sequence)

example : classify_career (.str "FR") = "Stayed in France" := by decide
example : classify_career (.str "FR -> US -> FR") = "Round-trip (via US)" := by decide
example : classify_career (.str "FR -> DE -> FR") = "Round-trip (no US)" := by decide
example : classify_career (.str "FR -> US") = "Expatriate (to US)" := by decide
example : classify_career (.str "FR -> DE") = "Expatriate (abroad, no US)" := by decide
example : classify_career (.str "FR -> FR,US") = "Complex/Ongoing Migration" := by decide

/-! ## The first-country scan (`filter_phd_authors.main`,
`mark_french_phd_authors.prepare_author_urls`) -/

/-- Loop body of the first-country scan in `filter_phd_authors.main`: an entry
is skipped while it is falsy (empty) or a case-insensitive placeholder token;
the first remaining entry yields its first comma token, stripped, and the scan
stops there. -/
def firstCountryGo : List String → Option String
  | [] => none
  | country :: rest =>
    let country_lower := pyLower country
    if country != "" && country_lower != "empty" && country_lower != "<empty>" then
      some (pyStrip ((pySplit country ",").headD ""))
    else firstCountryGo rest

/-- Value `first_country` as computed by `filter_phd_authors.main` from a
`country_codes_sequence` cell: split on the `' -> '` separator, strip each
component, then scan. -/
def firstCountry (country_sequence : String) : Option String :=
  firstCountryGo ((pySplit country_sequence " -> ").map pyStrip)

/-- The same scan as written in `mark_french_phd_authors.prepare_author_urls`,
whose skip test is `country.lower() not in ['empty', '<empty>']`. -/
def firstCountryGoMark : List String → Option String
  | [] => none
  | country :: rest =>
    if country != "" && !(["empty", "<empty>"].contains (pyLower country)) then
      some (pyStrip ((pySplit country ",").headD ""))
    else firstCountryGoMark rest

/-- Value `first_country` as computed by `prepare_author_urls`. -/
def firstCountryMark (country_sequence : String) : Option String :=
  firstCountryGoMark ((pySplit country_sequence " -> ").map pyStrip)

/-- The candidate-skipping test of the scan, named for the statements below:
an entry is skipped exactly when its stripped value is the empty string (the
explicit empty marker) or a case-insensitive placeholder token. -/
def isSkippedEntry (country : String) : Bool :=
  country == "" || pyLower country == "empty" || pyLower country == "<empty>"

example : firstCountry "<EMPTY> -> FR,GB -> US" = some "FR" := by decide
example : firstCountry "empty -> empty" = none := by decide

/-! ## Numeric cells (`pd.to_numeric(..., errors='coerce')` + `astype` int) -/

/-- Decimal digit test. -/
def isDigitChar (c : Char) : Bool :=
  48 ≤ c.toNat && c.toNat ≤ 57

/-- Value of a digit string, most significant first. -/
def natOfDigits (l : List Char) : Nat :=
  l.foldl (fun acc c => 10 * acc + (c.toNat - 48)) 0

/-- Unsigned decimal numeral: digits, optionally a point and fraction digits;
at least one digit overall.  Returns the integer part and whether a nonzero
fractional part is present. -/
def parseDecimal (u : List Char) : Option (Nat × Bool) :=
  let ip := u.takeWhile isDigitChar
  let rest := u.dropWhile isDigitChar
  match rest with
  | [] => if ip.isEmpty then none else some (natOfDigits ip, false)
  | '.' :: fr =>
    if fr.all isDigitChar && !(ip.isEmpty && fr.isEmpty) then
      some (natOfDigits ip, fr.any fun c => c != '0')
    else none
  | _ => none

/-- Model of `pd.to_numeric(errors='coerce')` on one string cell, followed by
the `astype` conversion to an integer column: `none` when the cell does not
parse as a plain decimal numeral (the conversion yields NaN and the row is
later dropped), otherwise the value truncated toward zero together with a flag
recording whether a nonzero fractional part was present.  Surrounding
whitespace is tolerated, as pandas does; scientific notation and inf/nan
spellings, absent from this dataset, are not modelled. -/
def pyToNumeric (s : String) : Option (Int × Bool) :=
  match pyStripList s.data with
  | '-' :: rest => (parseDecimal rest).map fun p => (-(p.1 : Int), p.2)
  | '+' :: rest => (parseDecimal rest).map fun p => ((p.1 : Int), p.2)
  | t => (parseDecimal t).map fun p => ((p.1 : Int), p.2)

example : pyToNumeric "1995" = some (1995, false) := by decide
example : pyToNumeric "1995.5" = some (1995, true) := by decide
example : pyToNumeric "-3.7" = some (-3, true) := by decide
example : pyToNumeric "" = none := by decide
example : pyToNumeric "19a5" = none := by decide

/-! ## Chunk cleaning and per-author sequences (`process_authors.py`,
`create_author_sequences_optimized`) -/

/-- One raw CSV row restricted to the three used columns, each read as a
string; `none` models a missing cell (pandas NaN). -/
structure RawRow where
  author_id : Option String
  publication_year : Option String
  country_codes : Option String

/-- Line `chunk['country_codes'].fillna('<empty>').str.replace('[...]', '', regex=True)`:
missing cells become the placeholder, and every brace character is removed. -/
def cleanCountryCodes (cc : Option String) : String :=
  ⟨(cc.getD "<empty>").data.filter fun c => !(c == '\x7b' || c == '\x7d')⟩

/-- One row of the chunk cleaning in `create_author_sequences_optimized`:
`publication_year` goes through `to_numeric(errors='coerce')`, rows with a
missing `author_id` or an unparseable year are dropped by `dropna`, the year
column is cast to an integer type, and the country cell is filled/cleaned. -/
def cleanRow (r : RawRow) : Option (String × Int × String) :=
  match r.author_id, r.publication_year.bind pyToNumeric with
  | some a, some p => some (a, p.1, cleanCountryCodes r.country_codes)
  | _, _ => none

/-- Cleaning a whole chunk keeps exactly the rows `cleanRow` accepts, in order. -/
def cleanChunk (rows : List RawRow) : List (String × Int × String) :=
  rows.filterMap cleanRow

/-- Counter `total_rows_processed` accumulates `len(chunk)` of each chunk after the
in-place `dropna`, i.e. the number of retained rows. -/
def totalRowsProcessed (chunks : List (List RawRow)) : Nat :=
  (chunks.map fun c => (cleanChunk c).length).sum

/-- Call `records.sort(key=lambda x: x[0])` — Python's `list.sort` is a stable sort
by the year component, modelled by the (stable) `List.mergeSort`. -/
def sortRecords (records : List (Int × String)) : List (Int × String) :=
  records.mergeSort fun a b => decide (a.1 ≤ b.1)

/-- Line `country_seq = ' -> '.join(r[1] for r in records)` — the serialized
country-codes sequence of one author's sorted records. -/
def countrySeqOfRecords (records : List (Int × String)) : String :=
  pyJoin " -> " (records.map Prod.snd)

/-! ## Row selection and cohort summarization (`create_migration_visual`) -/

/-- One row of the intermediate CSV read by `create_migration_visual`. -/
structure SequenceRow where
  author_id : String
  publication_years_sequence : Option String
  country_codes_sequence : Option String

/-- The row filtering of `create_migration_visual`: drop rows with a missing
sequence cell, take `min_year` as `to_numeric` of the first `' -> '` component
of the years sequence (dropping rows where it does not parse) cast to int,
keep rows with `min_year > 1990` whose first raw `' -> '` component of the
country sequence equals `'FR'`.  Returns `(min_year, country_codes_sequence)`
for the retained rows. -/
def selectRow (r : SequenceRow) : Option (Int × String) :=
  match r.publication_years_sequence, r.country_codes_sequence with
  | some ys, some cs =>
    match pyToNumeric ((pySplit ys " -> ").headD "") with
    | some p =>
      if p.1 > 1990 && ((pySplit cs " -> ").headD "" == "FR") then some (p.1, cs)
      else none
    | none => none
  | _, _ => none

/-- The classified rows: `fr_starters['category'] = ...apply(classify_career)`,
keyed by the `min_year` cohort bucket. -/
def classifiedRows (rows : List SequenceRow) : List (Int × String) :=
  (rows.filterMap selectRow).map fun p => (p.1, classify_career (.str p.2))

/-- Size of the `min_year = y` cohort bucket. -/
def bucketTotal (classified : List (Int × String)) (y : Int) : Nat :=
  (classified.filter fun p => p.1 == y).length

/-- Count of one category inside the `min_year = y` bucket, as produced by
`groupby('min_year')['category'].value_counts().unstack(fill_value=0)`. -/
def categoryCount (classified : List (Int × String)) (y : Int) (cat : String) : Nat :=
  (classified.filter fun p => p.1 == y && p.2 == cat).length

/-- Line `cohort_percentages = cohort_trends.div(cohort_trends.sum(axis=1), axis=0) * 100`,
modelled over the rationals. -/
def cohortPercentage (classified : List (Int × String)) (y : Int) (cat : String) : ℚ :=
  (categoryCount classified y cat : ℚ) / (bucketTotal classified y : ℚ) * 100

/-- The percentage row of the bucket `y` after
`reindex(columns=all_categories, fill_value=0)`: one column per category, in
the fixed `all_categories` order. -/
def cohortRow (classified : List (Int × String)) (y : Int) : List (String × ℚ) :=
  allCategories.map fun cat => (cat, cohortPercentage classified y cat)

/-! ## Helper lemmas -/

theorem pySplitGo_ne_nil (sep : List Char) :
    ∀ (fuel : Nat) (s acc : List Char), pySplitGo sep fuel s acc ≠ []
  | 0, s, acc => by simp [pySplitGo]
  | fuel + 1, s, acc => by
    cases s with
    | nil => simp [pySplitGo]
    | cons c cs =>
      rw [pySplitGo]
      split
      · simp
      · exact pySplitGo_ne_nil sep fuel cs (c :: acc)

theorem pySplit_ne_nil (s sep : String) : pySplit s sep ≠ [] := by
  unfold pySplit
  intro h
  exact pySplitGo_ne_nil sep.data (s.data.length + 1) s.data [] (List.map_eq_nil_iff.mp h)

theorem careerCountries_ne_nil (s : String) : careerCountries s ≠ [] := by
  unfold careerCountries
  intro h
  exact pySplit_ne_nil s "->" (List.map_eq_nil_iff.mp h)

theorem getLastD_mem {α : Type} :
    ∀ (l : List α) (d : α), l ≠ [] → l.getLastD d ∈ l
  | [], _, h => absurd rfl h
  | [a], d, _ => by simp [List.getLastD]
  | a :: b :: t, d, _ => by
    rw [List.getLastD_cons]
    exact List.mem_cons_of_mem a (getLastD_mem (b :: t) a (by simp))

theorem getLastD_eq_FR_of_all (l : List String) (h0 : l ≠ [])
    (hall : l.all (fun c => c == "FR") = true) : l.getLastD "" = "FR" := by
  have hm := getLastD_mem l "" h0
  simpa using List.all_eq_true.mp hall _ hm

theorem classifyCountries_mem (countries : List String) :
    classifyCountries countries ∈ allCategories := by
  unfold classifyCountries allCategories
  split
  · simp
  · dsimp only
    split
    · split <;> simp
    · split
      · simp
      · split <;> simp

/-- Unfolding of `classifyCountries` once the all-`"FR"` test has failed. -/
theorem classifyCountries_eq_of_not_all (countries : List String)
    (hnot : countries.all (fun c => c == "FR") = false) :
    classifyCountries countries =
      if countries.getLastD "" == "FR" then
        if countries.any (fun c => (pySplit c ",").contains "US") then "Round-trip (via US)"
        else "Round-trip (no US)"
      else
        if ((pySplit (countries.getLastD "") ",").map pyStrip).contains "US" &&
            !((pySplit (countries.getLastD "") ",").map pyStrip).contains "FR" then
          "Expatriate (to US)"
        else if !((pySplit (countries.getLastD "") ",").map pyStrip).contains "US" &&
            !((pySplit (countries.getLastD "") ",").map pyStrip).contains "FR" then
          "Expatriate (abroad, no US)"
        else "Complex/Ongoing Migration" := by
  unfold classifyCountries
  rw [hnot]
  rfl

/-! ## The claims -/

/-- Claim C10 (confirmed): `classify_career` is a total function; for every
string input — including the empty string, sequences violating the origin
precondition and malformed country tokens — it returns one of exactly the six
category labels, and the seventh label `"Invalid Sequence"` (which is not one
of the six) is returned only on the non-string branch. -/
theorem C10_classifier_total :
    (∀ s : String, classify_career (.str s) ∈ allCategories) ∧
    classify_career .nonStr = "Invalid Sequence" ∧
    allCategories.contains "Invalid Sequence" = false :=
  ⟨fun _ => classifyCountries_mem _, rfl, by decide⟩

/-- Claim C5 counterexample: the single-entry sequence whose entry is
`"FR "` (trailing blank, not exactly the code `"FR"`) still serializes and
classifies as `"Stayed in France"`, because `classify_career` strips each
component before comparing — refuting the only-if direction of the claim. -/
theorem C5_counterexample :
    (["FR "].all fun c => c == "FR") = false ∧
    classify_career (.str (pyJoin " -> " ["FR "])) = "Stayed in France" := by
  decide

/-- Claim C5 amended: `classify_career` returns `"Stayed in France"` exactly
when every whitespace-stripped `'->'` component of the sequence string equals
`"FR"` literally; in particular the single-entry sequence `"FR"` does. -/
theorem C5_stayed_iff (s : String) :
    classify_career (.str s) = "Stayed in France" ↔
      (careerCountries s).all (fun c => c == "FR") = true := by
  show classifyCountries (careerCountries s) = _ ↔ _
  by_cases hall : (careerCountries s).all (fun c => c == "FR") = true
  · unfold classifyCountries
    rw [if_pos hall, hall]
    simp
  · rw [Bool.not_eq_true] at hall
    rw [classifyCountries_eq_of_not_all _ hall, hall]
    constructor
    · intro h
      revert h
      split
      · split <;> decide
      · split
        · decide
        · split <;> decide
    · intro h
      exact absurd h (by decide)

/-- Claim C1 counterexample: the sequence `"FR"` has last entry exactly
`"FR"` and no `"US"` token anywhere, so the claim predicts
`"Round-trip (no US)"`; but `classify_career` returns `"Stayed in France"`,
because the all-origin rule takes precedence over the round-trip rule. -/
theorem C1_counterexample :
    (careerCountries "FR").getLastD "" = "FR" ∧
    ((careerCountries "FR").any fun c => (pySplit c ",").contains "US") = false ∧
    classify_career (.str "FR") = "Stayed in France" ∧
    (classify_career (.str "FR") == "Round-trip (no US)") = false := by
  decide

/-- Claim C1 amended: for every sequence whose stripped last component equals
`"FR"` and in which not every stripped component is `"FR"`, the classifier
returns `"Round-trip (via US)"` exactly when `"US"` occurs as a comma token of
some component, and `"Round-trip (no US)"` exactly otherwise. -/
theorem C1_roundtrip (s : String)
    (hlast : (careerCountries s).getLastD "" = "FR")
    (hnot : (careerCountries s).all (fun c => c == "FR") = false) :
    (classify_career (.str s) = "Round-trip (via US)" ↔
      ((careerCountries s).any fun c => (pySplit c ",").contains "US") = true) ∧
    (classify_career (.str s) = "Round-trip (no US)" ↔
      ((careerCountries s).any fun c => (pySplit c ",").contains "US") = false) := by
  show (classifyCountries (careerCountries s) = _ ↔ _) ∧
    (classifyCountries (careerCountries s) = _ ↔ _)
  rw [classifyCountries_eq_of_not_all _ hnot, hlast]
  cases hany : (careerCountries s).any fun c => (pySplit c ",").contains "US" <;> decide

/-- Witness for C1: `"FR -> US -> FR"` satisfies both hypotheses and
classifies as `"Round-trip (via US)"`. -/
theorem C1_roundtrip_witness :
    classify_career (.str "FR -> US -> FR") = "Round-trip (via US)" :=
  ((C1_roundtrip "FR -> US -> FR" (by decide) (by decide)).1).mpr (by decide)

/-- Claim C2 counterexample: serializing the entries `["FR", "US", "FR "]`
(the last entry carries a trailing blank, so its full unparsed value is not
exactly `"FR"`), `classify_career` nevertheless takes the
`is_last_only_france` branch and returns `"Round-trip (via US)"`, because each
`'->'` component is whitespace-stripped before the literal comparison. -/
theorem C2_counterexample :
    (["FR", "US", "FR "].getLastD "" == "FR") = false ∧
    classify_career (.str (pyJoin " -> " ["FR", "US", "FR "])) = "Round-trip (via US)" := by
  decide

/-- Claim C2 amended: the return-to-origin test compares the
whitespace-stripped last `'->'` component for literal string equality with
`"FR"` (not set-equality against the origin set).  For every sequence whose
stripped last component differs from `"FR"` — which covers case variants such
as `"fr"`, but not whitespace paddings of `"FR"`, which do take the branch —
the round-trip branch is not taken: the result is one of the four
non-round-trip labels. -/
theorem C2_literal_last_compare (s : String)
    (hlast : (careerCountries s).getLastD "" ≠ "FR") :
    classify_career (.str s) ∈
      ["Stayed in France", "Expatriate (to US)", "Expatriate (abroad, no US)",
       "Complex/Ongoing Migration"] := by
  show classifyCountries (careerCountries s) ∈ _
  by_cases hall : (careerCountries s).all (fun c => c == "FR") = true
  · unfold classifyCountries
    rw [if_pos hall]
    decide
  · rw [Bool.not_eq_true] at hall
    rw [classifyCountries_eq_of_not_all _ hall,
      if_neg (by simpa using hlast)]
    split
    · decide
    · split <;> decide

/-- Witness for C2: the case-variant last entry `"fr"` does not take the
round-trip branch. -/
theorem C2_literal_last_compare_witness :
    classify_career (.str "FR -> fr") ∈
      ["Stayed in France", "Expatriate (to US)", "Expatriate (abroad, no US)",
       "Complex/Ongoing Migration"] :=
  C2_literal_last_compare "FR -> fr" (by decide)

/-- Claim C6 (confirmed): for every sequence whose stripped last component —
the classifier's `last_location_raw`, its "full unparsed value" — is not
exactly `"FR"`, the last entry's country set (its stripped comma tokens)
decides the outcome: `"US"` in and `"FR"` out gives `"Expatriate (to US)"`,
neither in gives `"Expatriate (abroad, no US)"`, and every remaining case —
`"FR"` in the set together with anything else — gives
`"Complex/Ongoing Migration"`. -/
theorem C6_last_entry_cases (s : String)
    (hlast : (careerCountries s).getLastD "" ≠ "FR") :
    (((pySplit ((careerCountries s).getLastD "") ",").map pyStrip).contains "US" = true →
      ((pySplit ((careerCountries s).getLastD "") ",").map pyStrip).contains "FR" = false →
      classify_career (.str s) = "Expatriate (to US)") ∧
    (((pySplit ((careerCountries s).getLastD "") ",").map pyStrip).contains "US" = false →
      ((pySplit ((careerCountries s).getLastD "") ",").map pyStrip).contains "FR" = false →
      classify_career (.str s) = "Expatriate (abroad, no US)") ∧
    (((pySplit ((careerCountries s).getLastD "") ",").map pyStrip).contains "FR" = true →
      classify_career (.str s) = "Complex/Ongoing Migration") := by
  have hall : (careerCountries s).all (fun c => c == "FR") = false := by
    rw [← Bool.not_eq_true]
    intro h
    exact hlast (getLastD_eq_FR_of_all _ (careerCountries_ne_nil s) h)
  show (_ → _ → classifyCountries (careerCountries s) = _) ∧
    (_ → _ → classifyCountries (careerCountries s) = _) ∧
    (_ → classifyCountries (careerCountries s) = _)
  rw [classifyCountries_eq_of_not_all _ hall, if_neg (by simpa using hlast)]
  refine ⟨fun h1 h2 => ?_, fun h1 h2 => ?_, fun h2 => ?_⟩
  · rw [h1, h2]; decide
  · rw [h1, h2]; decide
  · rw [h2]
    simp only [Bool.not_true, Bool.and_false]
    rw [if_neg Bool.false_ne_true, if_neg Bool.false_ne_true]

/-- Witness for C6: `"FR -> DE"` is an expatriate abroad and
`"FR -> FR,US"` is complex/ongoing. -/
theorem C6_last_entry_cases_witness :
    classify_career (.str "FR -> DE") = "Expatriate (abroad, no US)" ∧
    classify_career (.str "FR -> FR,US") = "Complex/Ongoing Migration" :=
  ⟨(C6_last_entry_cases "FR -> DE" (by decide)).2.1 (by decide) (by decide),
   (C6_last_entry_cases "FR -> FR,US" (by decide)).2.2 (by decide)⟩

/-- Three-way De Morgan on `Bool`. -/
theorem bool_not_or3 (x y z : Bool) : (!x && !y && !z) = !(x || y || z) := by
  cases x <;> cases y <;> cases z <;> rfl

/-- The skip condition written in `filter_phd_authors.main` agrees with
`isSkippedEntry`. -/
theorem scanCond_eq (a : String) :
    (a != "" && pyLower a != "empty" && pyLower a != "<empty>") = !isSkippedEntry a := by
  unfold isSkippedEntry
  exact bool_not_or3 (a == "") (pyLower a == "empty") (pyLower a == "<empty>")

/-- The skip condition written in `prepare_author_urls` agrees with
`isSkippedEntry` as well. -/
theorem scanCondMark_eq (a : String) :
    (a != "" && !(["empty", "<empty>"].contains (pyLower a))) = !isSkippedEntry a := by
  unfold isSkippedEntry
  cases h1 : a == "" <;> cases h2 : pyLower a == "empty" <;> cases h3 : pyLower a == "<empty>" <;>
    simp [bne, List.contains_cons, h1, h2, h3] <;> simp_all

/-- The scan loop is `List.find?` of the first non-skipped entry, followed by
extraction of that entry's first comma token. -/
theorem firstCountryGo_eq_find (l : List String) :
    firstCountryGo l =
      (l.find? fun c => !isSkippedEntry c).map fun c => pyStrip ((pySplit c ",").headD "") := by
  induction l with
  | nil => rfl
  | cons a t ih =>
    rw [firstCountryGo]
    rw [scanCond_eq]
    cases hskip : isSkippedEntry a with
    | false =>
      rw [if_pos (by simp [hskip]), List.find?_cons_of_pos _ (by simp [hskip])]
      rfl
    | true =>
      rw [if_neg (by simp [hskip]), List.find?_cons_of_neg _ (by simp [hskip])]
      exact ih

/-- Both scan implementations agree. -/
theorem firstCountryGoMark_eq_go (l : List String) :
    firstCountryGoMark l = firstCountryGo l := by
  induction l with
  | nil => rfl
  | cons a t ih =>
    rw [firstCountryGoMark, firstCountryGo]
    rw [scanCond_eq, scanCondMark_eq]
    split
    · rfl
    · exact ih

/-- Claim C3 (confirmed): in both scan implementations, an entry is skipped as
a first-country candidate exactly when its stripped country field is the
explicit empty marker (the empty string) or a case-insensitive placeholder
token (`empty`, `<empty>`); the first surviving entry contributes its first
comma token, stripped, and the scan stops there — even when that token strips
to the empty string, as the concrete sequence `", FR -> DE"` shows: the blank
first token of `", FR"` wins and `"DE"` is never inspected. -/
theorem C3_first_country_scan :
    (∀ s : String,
      firstCountry s =
        ((((pySplit s " -> ").map pyStrip).find? fun c => !isSkippedEntry c).map
          fun c => pyStrip ((pySplit c ",").headD "")) ∧
      firstCountryMark s = firstCountry s) ∧
    firstCountry ", FR -> DE" = some "" := by
  refine ⟨fun s => ⟨firstCountryGo_eq_find _, ?_⟩, by decide⟩
  show firstCountryGoMark _ = firstCountryGo _
  exact firstCountryGoMark_eq_go _

/-- Claim C4 counterexample: the row with years `"1995 -> 1996"` and countries
`"FR,GB -> US"` has first country `"FR"` under the §4.3 scan and a first year
1995 > 1990, so the claim predicts it is classified; but
`create_migration_visual` compares the raw first `' -> '` component
(`"FR,GB"`) to `"FR"` literally and drops the row. -/
theorem C4_counterexample :
    firstCountry "FR,GB -> US" = some "FR" ∧
    pyToNumeric "1995" = some (1995, false) ∧ (1990 : Int) < 1995 ∧
    selectRow ⟨"A1", some "1995 -> 1996", some "FR,GB -> US"⟩ = none := by
  decide

/-- Claim C4 amended: `create_migration_visual` classifies exactly the rows
whose two sequence cells are present, whose first `' -> '` component of the
years sequence parses numerically with integer truncation strictly greater
than 1990 (exclusive bound), and whose raw first `' -> '` component of the
country sequence is literally `"FR"` — not the §4.3 first-country scan. -/
theorem C4_selection (r : SequenceRow) :
    (selectRow r).isSome = true ↔
      ∃ ys, r.publication_years_sequence = some ys ∧
        ∃ cs, r.country_codes_sequence = some cs ∧
          (∃ p, pyToNumeric ((pySplit ys " -> ").headD "") = some p ∧ 1990 < p.1) ∧
          (pySplit cs " -> ").headD "" = "FR" := by
  obtain ⟨aid, oys, ocs⟩ := r
  cases oys with
  | none => simp only [selectRow]; simp
  | some ys =>
    cases ocs with
    | none => simp only [selectRow]; simp
    | some cs =>
      simp only [selectRow]
      cases hp : pyToNumeric ((pySplit ys " -> ").headD "") with
      | none =>
        dsimp only
        simp only [Option.isSome_none, Bool.false_eq_true, false_iff]
        rintro ⟨ys', hy, cs', hc, ⟨q, hq, hlt⟩, hfr⟩
        cases hy
        cases hc
        rw [hp] at hq
        exact Option.noConfusion hq
      | some p =>
        dsimp only
        by_cases h1 : 1990 < p.1
        · by_cases h2 : (pySplit cs " -> ").headD "" = "FR"
          · rw [if_pos (by rw [h2]; simpa using h1)]
            exact iff_of_true rfl ⟨ys, rfl, cs, rfl, ⟨p, hp, h1⟩, h2⟩
          · rw [if_neg (by
              simp only [Bool.and_eq_true, decide_eq_true_eq, beq_iff_eq]
              rintro ⟨-, hc⟩
              exact h2 hc)]
            simp only [Option.isSome_none, Bool.false_eq_true, false_iff]
            rintro ⟨ys', hy, cs', hc, hnum, hfr⟩
            cases hy
            cases hc
            exact h2 hfr
        · rw [if_neg (by
            simp only [Bool.and_eq_true, decide_eq_true_eq]
            rintro ⟨hgt, -⟩
            exact h1 hgt)]
          simp only [Option.isSome_none, Bool.false_eq_true, false_iff]
          rintro ⟨ys', hy, cs', hc, ⟨q, hq, hlt⟩, hfr⟩
          cases hy
          cases hc
          rw [hp, Option.some.injEq] at hq
          cases hq
          exact h1 hlt


/-- The year comparison used by `records.sort(key=lambda x: x[0])` is
transitive. -/
theorem yearLe_trans (a b c : Int × String) :
    decide (a.1 ≤ b.1) = true → decide (b.1 ≤ c.1) = true → decide (a.1 ≤ c.1) = true := by
  intro h1 h2
  simp only [decide_eq_true_eq] at *
  omega

/-- The year comparison is total. -/
theorem yearLe_total (a b : Int × String) :
    (decide (a.1 ≤ b.1) || decide (b.1 ≤ a.1)) = true := by
  simp only [Bool.or_eq_true, decide_eq_true_eq]
  omega

/-- Claim C7 (confirmed): for every author's collected records, the sorted
output is non-decreasing by year, is a permutation of the input (same multiset
of (year, country-field) pairs), and is stable: for every year, the equal-year
records appear exactly as in the input, in their original arrival order. -/
theorem C7_sort_stable_permutation (records : List (Int × String)) :
    List.Pairwise (fun a b => a.1 ≤ b.1) (sortRecords records) ∧
    (sortRecords records).Perm records ∧
    ∀ y : Int, (sortRecords records).filter (fun r => r.1 == y) =
      records.filter fun r => r.1 == y := by
  refine ⟨?_, List.mergeSort_perm records _, ?_⟩
  · exact (List.sorted_mergeSort yearLe_trans yearLe_total records).imp
      (fun h => by simpa using h)
  · intro y
    have hmem : ∀ r ∈ records.filter (fun r : Int × String => r.1 == y), r.1 = y := by
      intro r hr
      simpa using (List.mem_filter.mp hr).2
    have hpair : List.Pairwise (fun a b : Int × String => decide (a.1 ≤ b.1) = true)
        (records.filter fun r => r.1 == y) := by
      apply List.pairwise_of_forall_mem_list
      intro a ha b hb
      rw [hmem a ha, hmem b hb]
      simp
    have hsub : (records.filter fun r : Int × String => r.1 == y).Sublist
        (sortRecords records) :=
      List.sublist_mergeSort yearLe_trans yearLe_total hpair (List.filter_sublist records)
    have hsub2 : (records.filter fun r : Int × String => r.1 == y).Sublist
        ((sortRecords records).filter fun r => r.1 == y) := by
      have h := List.Sublist.filter (fun r : Int × String => r.1 == y) hsub
      rwa [List.filter_eq_self.mpr (fun a ha => (List.mem_filter.mp ha).2)] at h
    have hperm : ((sortRecords records).filter fun r : Int × String => r.1 == y).Perm
        (records.filter fun r => r.1 == y) :=
      (List.mergeSort_perm records _).filter _
    exact (hsub2.eq_of_length hperm.length_eq.symm).symm

/-- Sum of a 0/1 indicator over a duplicate-free list containing the element. -/
theorem sum_indicator_eq_one (K : List String) (c : String) (hN : K.Nodup) (hc : c ∈ K) :
    (K.map fun cat => if c = cat then (1 : ℕ) else 0).sum = 1 := by
  induction K with
  | nil => cases hc
  | cons k K ih =>
    rcases List.nodup_cons.mp hN with ⟨hk, hN2⟩
    rcases List.mem_cons.mp hc with h | h
    · subst h
      have hz : ∀ x ∈ K.map fun cat => if c = cat then (1 : ℕ) else 0, x = 0 := by
        intro x hx
        rcases List.mem_map.mp hx with ⟨cat, hcat, rfl⟩
        have hne : c ≠ cat := fun e => hk (e ▸ hcat)
        simp [hne]
      simp [List.sum_eq_zero hz]
    · have hck : c ≠ k := fun e => hk (e ▸ h)
      simp [hck, ih hN2 h]

/-- Pointwise sum-splitting over a mapped list of naturals. -/
theorem sum_map_add_nat {α : Type} (K : List α) (f g : α → ℕ) :
    (K.map fun x => f x + g x).sum = (K.map f).sum + (K.map g).sum := by
  induction K with
  | nil => rfl
  | cons k K ih =>
    simp only [List.map_cons, List.sum_cons, ih]
    omega

/-- Summing the per-category counts of a bucket over the six categories gives
the bucket total, provided every row's category is one of the six. -/
theorem categoryCount_sum (l : List (Int × String)) (y : Int)
    (hcat : ∀ p ∈ l, p.2 ∈ allCategories) :
    (allCategories.map fun cat => categoryCount l y cat).sum = bucketTotal l y := by
  induction l with
  | nil => simp [allCategories, categoryCount, bucketTotal]
  | cons q l ih =>
    have hq2 : q.2 ∈ allCategories := hcat q (List.mem_cons_self q l)
    have hl : ∀ p ∈ l, p.2 ∈ allCategories := fun p hp => hcat p (List.mem_cons_of_mem q hp)
    have hstep : ∀ cat, categoryCount (q :: l) y cat =
        (if q.1 = y ∧ q.2 = cat then 1 else 0) + categoryCount l y cat := by
      intro cat
      simp only [categoryCount, List.filter_cons]
      by_cases h : q.1 = y ∧ q.2 = cat
      · rw [if_pos (by simp [h.1, h.2]), if_pos h]
        simp [Nat.add_comm]
      · rw [if_neg (by simpa [Bool.and_eq_true, beq_iff_eq] using h), if_neg h]
        simp
    have hbt : bucketTotal (q :: l) y = (if q.1 = y then 1 else 0) + bucketTotal l y := by
      simp only [bucketTotal, List.filter_cons]
      by_cases h : q.1 = y
      · rw [if_pos (by simp [h]), if_pos h]
        simp [Nat.add_comm]
      · rw [if_neg (by simpa using h), if_neg h]
        simp
    rw [List.map_congr_left fun cat _ => hstep cat, sum_map_add_nat, ih hl, hbt]
    congr 1
    by_cases hy : q.1 = y
    · simp only [hy, true_and, if_pos trivial]
      exact sum_indicator_eq_one allCategories q.2 (by decide) hq2
    · rw [if_neg hy]
      refine List.sum_eq_zero ?_
      intro x hx
      rcases List.mem_map.mp hx with ⟨cat, hcm, rfl⟩
      simp [hy]

/-- Every category produced by the classification stage is one of the six. -/
theorem classifiedRows_cat_mem (rows : List SequenceRow) :
    ∀ p ∈ classifiedRows rows, p.2 ∈ allCategories := by
  intro p hp
  rcases List.mem_map.mp hp with ⟨q, hq, rfl⟩
  exact classifyCountries_mem _

/-- Claim C8 (confirmed): every cohort bucket actually produced (a start year
with at least one classified row) reports all six category keys — a category
with no rows appears with percentage `0`, not as a missing column — and the
six percentages of the bucket sum to exactly 100 in the rational model
(hence to 100 within floating-point tolerance in the implementation). -/
theorem C8_cohort_full_and_sums (rows : List SequenceRow) (y : Int)
    (hy : 0 < bucketTotal (classifiedRows rows) y) :
    (cohortRow (classifiedRows rows) y).map Prod.fst = allCategories ∧
    ((cohortRow (classifiedRows rows) y).map Prod.snd).sum = 100 := by
  constructor
  · rw [cohortRow, List.map_map]
    exact List.map_id allCategories
  · have hT : ((bucketTotal (classifiedRows rows) y : ℕ) : ℚ) ≠ 0 := by
      have h0 : (0 : ℚ) < ((bucketTotal (classifiedRows rows) y : ℕ) : ℚ) := by
        exact_mod_cast hy
      exact ne_of_gt h0
    rw [cohortRow, List.map_map]
    have h1 : (Prod.snd ∘ fun cat => (cat, cohortPercentage (classifiedRows rows) y cat)) =
        fun cat => cohortPercentage (classifiedRows rows) y cat := rfl
    rw [h1]
    have h2 : ∀ cat ∈ allCategories,
        cohortPercentage (classifiedRows rows) y cat =
          (categoryCount (classifiedRows rows) y cat : ℚ) *
            (100 / (bucketTotal (classifiedRows rows) y : ℚ)) := by
      intro cat _
      rw [cohortPercentage]
      ring
    rw [List.map_congr_left h2, List.sum_map_mul_right]
    have h3 : (allCategories.map fun cat =>
          ((categoryCount (classifiedRows rows) y cat : ℕ) : ℚ)).sum =
        (((allCategories.map fun cat => categoryCount (classifiedRows rows) y cat).sum : ℕ) : ℚ) := by
      rw [Nat.cast_list_sum, List.map_map]
      rfl
    rw [h3, categoryCount_sum _ _ (classifiedRows_cat_mem rows)]
    rw [mul_comm, div_mul_cancel₀ _ hT]

/-- Witness for C8: a single author starting in 1995 who stayed in France
gives the 1995 bucket all six keys and percentages summing to 100. -/
theorem C8_cohort_full_and_sums_witness :
    (cohortRow (classifiedRows [⟨"A1", some "1995", some "FR"⟩]) 1995).map Prod.fst =
      allCategories ∧
    ((cohortRow (classifiedRows [⟨"A1", some "1995", some "FR"⟩]) 1995).map Prod.snd).sum =
      100 :=
  C8_cohort_full_and_sums [⟨"A1", some "1995", some "FR"⟩] 1995 (by decide)

/-- Claim C9 counterexample: the year cell `"1995.5"` is numeric but not an
integer, yet the row is kept with the truncated year 1995 (a coercion the
claim rules out); and a row whose `author_id` is missing is rejected even
though its year `"1995"` is numeric, against the claim's "exactly when the
year is absent or non-numeric". -/
theorem C9_counterexample :
    cleanRow ⟨some "A1", some "1995.5", some "FR"⟩ = some ("A1", 1995, "FR") ∧
    pyToNumeric "1995.5" = some (1995, true) ∧
    cleanRow ⟨none, some "1995", some "FR"⟩ = none := by
  decide

/-- Claim C9 amended: a row is kept exactly when its `author_id` is present
and its year cell parses as a decimal numeral (a fractional year is truncated
toward zero, not rejected); each rejection drops exactly that row while the
rest of the chunk is processed unchanged; and the run-level figure accumulated
across chunks (`total_rows_processed`) counts the retained rows — no count of
rejected rows is surfaced. -/
theorem C9_normalizer_behavior :
    (∀ r : RawRow,
      (cleanRow r).isSome =
        (r.author_id.isSome && (r.publication_year.bind pyToNumeric).isSome)) ∧
    (∀ (a s : String) (cc : Option String),
      cleanRow ⟨some a, some s, cc⟩ =
        (pyToNumeric s).map fun p => (a, p.1, cleanCountryCodes cc)) ∧
    (∀ (pre post : List RawRow) (r : RawRow),
      cleanChunk (pre ++ r :: post) =
        cleanChunk pre ++ (cleanRow r).toList ++ cleanChunk post) ∧
    (∀ chunks : List (List RawRow),
      totalRowsProcessed chunks = (cleanChunk chunks.flatten).length) := by
  refine ⟨?_, ?_, ?_, ?_⟩
  · rintro ⟨oa, oy, occ⟩
    cases oa <;> cases hb : oy.bind pyToNumeric <;> simp [cleanRow, hb]
  · intro a s cc
    cases hp : pyToNumeric s <;> simp [cleanRow, Option.bind, hp]
  · intro pre post r
    show List.filterMap cleanRow _ = _
    rw [List.filterMap_append]
    cases h : cleanRow r <;> simp [cleanChunk, List.filterMap_cons, h]
  · intro chunks
    induction chunks with
    | nil => rfl
    | cons c cs ih =>
      simp only [totalRowsProcessed, cleanChunk, List.map_cons, List.sum_cons,
        List.flatten_cons, List.filterMap_append, List.length_append]
      have h := ih
      simp only [totalRowsProcessed, cleanChunk] at h
      omega

end FRUSA
